import Mathlib

/-!
Verification of the CSS selector builder in `src/05-objects-tasks.js`
(class `CSSSelector`, facade `cssSelectorBuilder`, and the `Rectangle`
factory), as a shallow embedding in Lean 4.

Modelling notes:
* A JS method on a mutable object that may `throw` is embedded as a pure
  function `State → State × Option Err`; the returned state is the object
  state as left behind by the call, including mutations performed before a
  throw (the JS source mutates fields before calling `checkOrder`).
* JS string truthiness (`if (this.elementValue)`) is embedded as the test
  against the empty string.
* `Array.prototype.push` is append at the end; `Array.prototype.join(sep)`
  is embedded as `joinSep sep`.
* The two distinct `Error` messages thrown by the source are embedded as
  the two constructors of `Err`.
-/

namespace CssBuilder

/-- The two error conditions raised by `CSSSelector`: the duplicate-fragment
message (thrown by `element`, `id`, `pseudoElement`) and the out-of-order
message (thrown by `checkOrder`). -/
inductive Err where
  | duplicate
  | outOfOrder
deriving DecidableEq

/-- The fields of a `CSSSelector` instance, as initialised by the JS
constructor: three single string slots, three append-only lists, and the
`priority` rank tracker. -/
structure State where
  elementValue : String
  idValue : String
  classValues : List String
  attrValues : List String
  pseudoClassValues : List String
  pseudoElementValue : String
  priority : Nat
deriving DecidableEq

/-- The state produced by `new CSSSelector()`. -/
def initState : State :=
  { elementValue := ""
    idValue := ""
    classValues := []
    attrValues := []
    pseudoClassValues := []
    pseudoElementValue := ""
    priority := 0 }

/-- One fragment call on a builder, tagging the JS method with its string
argument: `element`, `id`, `class`, `attr`, `pseudoClass`, `pseudoElement`. -/
inductive Call where
  | elem (value : String)
  | id (value : String)
  | cls (value : String)
  | attr (value : String)
  | pcls (value : String)
  | pelem (value : String)
deriving DecidableEq

/-- The fixed kind-rank of each fragment call (the argument the JS method
passes to `checkOrder`). -/
def rank : Call → Nat
  | .elem _ => 1
  | .id _ => 2
  | .cls _ => 3
  | .attr _ => 4
  | .pcls _ => 5
  | .pelem _ => 6

/-- Embeds `CSSSelector.checkOrder(priority)`: if `this.priority <= priority` the
tracker is updated, otherwise the out-of-order error is thrown and the state
is left as it was. -/
def checkOrderStep (st : State) (p : Nat) : State × Option Err :=
  if st.priority ≤ p then ({ st with priority := p }, none)
  else (st, some Err.outOfOrder)

/-- One fragment method call on a `CSSSelector`, returning the object state
it leaves behind together with the error it throws, if any. Mirrors the JS
bodies: the duplicate check reads the old field, the field is assigned, and
only then is `checkOrder` called. -/
def stepEx (st : State) : Call → State × Option Err
  | .elem v =>
    if st.elementValue ≠ "" then (st, some Err.duplicate)
    else checkOrderStep { st with elementValue := v } 1
  | .id v =>
    if st.idValue ≠ "" then (st, some Err.duplicate)
    else checkOrderStep { st with idValue := v } 2
  | .cls v =>
    checkOrderStep { st with classValues := st.classValues ++ [v] } 3
  | .attr v =>
    checkOrderStep { st with attrValues := st.attrValues ++ [v] } 4
  | .pcls v =>
    checkOrderStep { st with pseudoClassValues := st.pseudoClassValues ++ [v] } 5
  | .pelem v =>
    if st.pseudoElementValue ≠ "" then (st, some Err.duplicate)
    else checkOrderStep { st with pseudoElementValue := v } 6

/-- Embeds `Array.prototype.join(sep)` on the embedded list of strings. -/
def joinSep (sep : String) : List String → String
  | [] => ""
  | [a] => a
  | a :: b :: rest => a ++ sep ++ joinSep sep (b :: rest)

/-- Embeds `CSSSelector.stringify()`: builds the result by the six conditional
appends of the JS body, reading fields only (the body never assigns to
`this`). -/
def stringify (st : State) : String :=
  let result := ""
  let result := if st.elementValue ≠ "" then result ++ st.elementValue else result
  let result := if st.idValue ≠ "" then result ++ "#" ++ st.idValue else result
  let result := if st.classValues.length > 0 then
    result ++ "." ++ joinSep "." st.classValues else result
  let result := if st.attrValues.length > 0 then
    result ++ "[" ++ joinSep "][" st.attrValues ++ "]" else result
  let result := if st.pseudoClassValues.length > 0 then
    result ++ ":" ++ joinSep ":" st.pseudoClassValues else result
  let result := if st.pseudoElementValue ≠ "" then
    result ++ "::" ++ st.pseudoElementValue else result
  result

/-- The method `stringify` as a state-passing call: the JS body assigns only to the
local `result`, never to `this`, so the embedded method returns the receiver
unchanged alongside the string. -/
def stringifyRun (st : State) : String × State :=
  (stringify st, st)

/-- Runs a sequence of fragment calls on a builder, stopping at the first
thrown error (a throw aborts the rest of a JS method chain). -/
def runAll (st : State) : List Call → Except Err State
  | [] => .ok st
  | c :: rest =>
    match stepEx st c with
    | (st1, none) => runAll st1 rest
    | (_, some e) => .error e

/-- A method chain started from the `cssSelectorBuilder` facade (which news
up a fresh `CSSSelector` for the first call) and finished by `stringify()`. -/
def renderRun (calls : List Call) : Except Err String :=
  (runAll initState calls).map stringify

/-- The object returned by `cssSelectorBuilder.combine`: a fresh
`CSSSelector` (field `base`) whose `stringify` own-property is overridden by
a closure returning the precomputed string (field `result`). -/
structure Combined where
  base : State
  result : String
deriving DecidableEq

/-- An operand acceptable to `combine`: either a plain builder or a
previously combined result. -/
inductive Renderable where
  | plain (st : State)
  | combined (c : Combined)
deriving DecidableEq

/-- Calling `stringify()` on an operand: the plain method on a builder, the
overriding closure on a combined object. -/
def render : Renderable → String
  | .plain st => stringify st
  | .combined c => c.result

/-- Embeds `cssSelectorBuilder.combine(selector1, combinator, selector2)`. -/
def combine (a : Renderable) (t : String) (b : Renderable) : Combined :=
  { base := initState
    result := render a ++ " " ++ t ++ " " ++ render b }

/-- A fragment method call on a combined object: the inherited method
mutates the fields of the underlying fresh `CSSSelector`; the overridden
`stringify` own-property is untouched. -/
def stepCombined (c : Combined) (k : Call) : Combined × Option Err :=
  let p := stepEx c.base k
  ({ c with base := p.1 }, p.2)

/-- Calling `stringify()` on a combined object: the overriding own-property shadows
the class method and returns the string frozen at combine time. -/
def renderCombined (c : Combined) : String :=
  c.result

/-- Applies a sequence of fragment calls to a combined object, each call
attempted on the state left by the previous one (errors, if thrown, are
caught by the caller). -/
def applyCalls (c : Combined) : List Call → Combined
  | [] => c
  | k :: rest => applyCalls (stepCombined c k).1 rest

/-- The element-call values of a call list, in order. -/
def elems : List Call → List String
  | [] => []
  | .elem v :: rest => v :: elems rest
  | _ :: rest => elems rest

/-- The id-call values of a call list, in order. -/
def ids : List Call → List String
  | [] => []
  | .id v :: rest => v :: ids rest
  | _ :: rest => ids rest

/-- The class-call values of a call list, in order. -/
def clss : List Call → List String
  | [] => []
  | .cls v :: rest => v :: clss rest
  | _ :: rest => clss rest

/-- The attr-call values of a call list, in order. -/
def attrs : List Call → List String
  | [] => []
  | .attr v :: rest => v :: attrs rest
  | _ :: rest => attrs rest

/-- The pseudo-class-call values of a call list, in order. -/
def pclss : List Call → List String
  | [] => []
  | .pcls v :: rest => v :: pclss rest
  | _ :: rest => pclss rest

/-- The pseudo-element-call values of a call list, in order. -/
def pelems : List Call → List String
  | [] => []
  | .pelem v :: rest => v :: pelems rest
  | _ :: rest => pelems rest

/-- Concatenation of a list of strings. -/
def joinAll : List String → String
  | [] => ""
  | s :: rest => s ++ joinAll rest

/-- Kind-ranks of the calls are non-decreasing, starting from the rank
tracker value `p`: exactly the condition under which every `checkOrder`
test passes. -/
def ranksOK : Nat → List Call → Bool
  | _, [] => true
  | p, c :: rest => decide (p ≤ rank c) && ranksOK (rank c) rest

/-- The render output the specification describes, computed from the call
list: concatenation in fixed kind order of the element as-is, the id with
`#`, each class with `.`, each attribute in `[` `]`, each pseudo-class with
`:`, and the pseudo-element with `::`, every empty group omitted (a singular
fragment holding the empty string counts as an empty group, per the
spec rule that such a fragment is treated as absent). -/
def claimRender (calls : List Call) : String :=
  joinAll (elems calls)
    ++ (if joinAll (ids calls) = "" then "" else "#" ++ joinAll (ids calls))
    ++ joinAll ((clss calls).map (fun s => "." ++ s))
    ++ joinAll ((attrs calls).map (fun s => "[" ++ s ++ "]"))
    ++ joinAll ((pclss calls).map (fun s => ":" ++ s))
    ++ (if joinAll (pelems calls) = "" then ""
        else "::" ++ joinAll (pelems calls))

/-- Whether a call hits the duplicate guard of `element`, `id` or
`pseudoElement`: the stored singular value is truthy (nonempty). -/
def dupThrows (st : State) : Call → Bool
  | .elem _ => decide (st.elementValue ≠ "")
  | .id _ => decide (st.idValue ≠ "")
  | .pelem _ => decide (st.pseudoElementValue ≠ "")
  | _ => false

end CssBuilder

namespace RectFactory

/-- The shape of the object returned by the `Rectangle` factory: two data
fields and the `getArea` method. JS numbers are modelled abstractly as
integers; the property at stake (closure binding of the constructor
arguments) does not depend on the arithmetic domain. -/
structure Rect where
  width : Int
  height : Int
  getArea : Unit → Int

/-- Embeds `function Rectangle(width, height)`: builds a fresh object,
assigns `width` and `height`, and installs `getArea` as a closure over the
constructor parameters (not over the object fields). -/
def Rectangle (w h : Int) : Rect :=
  { width := w
    height := h
    getArea := fun _ => w * h }

end RectFactory

namespace CssBuilder

/-- Helper: fragment calls on a combined object never touch the overriding
`stringify` closure. -/
theorem applyCalls_result (ks : List Call) : ∀ (c : Combined),
    (applyCalls c ks).result = c.result := by
  induction ks with
  | nil => intro c; rfl
  | cons k rest ih => intro c; exact ih (stepCombined c k).1

/-- C4: for every two renderable operands and every combinator token string
(the single-space token included), `combine` produces a renderable whose
render output is the left render output, a space, the token verbatim, a
space, and the right render output; the result is itself a `Renderable`
operand for further `combine` calls. -/
theorem combine_render_concat (a : Renderable) (t : String) (b : Renderable) :
    renderCombined (combine a t b) = render a ++ " " ++ t ++ " " ++ render b
      ∧ render (Renderable.combined (combine a t b))
          = render a ++ " " ++ t ++ " " ++ render b :=
  ⟨rfl, rfl⟩

/-- C7: the render output of a combined result is frozen at combine time:
any sequence of fragment calls applied to it afterwards leaves its render
output exactly what it was immediately after `combine`. -/
theorem combined_render_frozen (l : Renderable) (t : String) (r : Renderable)
    (ks : List Call) :
    renderCombined (applyCalls (combine l t r) ks)
      = renderCombined (combine l t r) :=
  applyCalls_result ks (combine l t r)

/-- C8: `stringify` is a pure, idempotent projection of the builder state:
the call leaves every field of the builder unchanged, and a second call on
the unchanged state returns the identical string. -/
theorem stringify_pure_idempotent (st : State) :
    (stringifyRun st).2 = st
      ∧ (stringifyRun ((stringifyRun st).2)).1 = (stringifyRun st).1 :=
  ⟨rfl, rfl⟩

/-- C6: the three worked examples of the spec render exactly the stated
strings; the combined example is built from the builder states produced by
the facade chains (pinned by the `runAll` equations) and shows the literal
triple space around the single-space descendant combinator token. -/
theorem worked_examples_render :
    renderRun [Call.id "main", Call.cls "container", Call.cls "editable"]
        = Except.ok "#main.container.editable"
      ∧ renderRun [Call.elem "a", Call.attr "href$=\".png\"", Call.pcls "focus"]
        = Except.ok "a[href$=\".png\"]:focus"
      ∧ runAll initState
            [Call.elem "div", Call.id "main", Call.cls "container",
              Call.cls "draggable"]
        = Except.ok ⟨"div", "main", ["container", "draggable"], [], [], "", 3⟩
      ∧ runAll initState [Call.elem "table", Call.id "data"]
        = Except.ok ⟨"table", "data", [], [], [], "", 2⟩
      ∧ runAll initState [Call.elem "tr", Call.pcls "nth-of-type(even)"]
        = Except.ok ⟨"tr", "", [], [], ["nth-of-type(even)"], "", 5⟩
      ∧ runAll initState [Call.elem "td", Call.pcls "nth-of-type(even)"]
        = Except.ok ⟨"td", "", [], [], ["nth-of-type(even)"], "", 5⟩
      ∧ renderCombined (combine
            (.plain ⟨"div", "main", ["container", "draggable"], [], [], "", 3⟩)
            "+"
            (.combined (combine
              (.plain ⟨"table", "data", [], [], [], "", 2⟩)
              "~"
              (.combined (combine
                (.plain ⟨"tr", "", [], [], ["nth-of-type(even)"], "", 5⟩)
                " "
                (.plain ⟨"td", "", [], [], ["nth-of-type(even)"], "", 5⟩))))))
        = "div#main.container.draggable + table#data ~ tr:nth-of-type(even)   td:nth-of-type(even)" :=
  ⟨rfl, rfl, rfl, rfl, rfl, rfl, rfl⟩

end CssBuilder

namespace RectFactory

/-- C10: `Rectangle(w, h)` returns an object with `width = w`, `height = h`
and `getArea()` returning `w * h`; `getArea` is closure-bound to the
constructor arguments, so it still returns the original product after the
`width` and `height` fields of the object are reassigned. -/
theorem Rectangle_closure_spec (w h : Int) :
    (Rectangle w h).width = w
      ∧ (Rectangle w h).height = h
      ∧ (Rectangle w h).getArea () = w * h
      ∧ ∀ w2 h2 : Int,
          ({ Rectangle w h with width := w2, height := h2 } : Rect).getArea ()
            = w * h :=
  ⟨rfl, rfl, rfl, fun _ _ => rfl⟩

end RectFactory

namespace CssBuilder

/-- C2 amended: outside the duplicate guard, a fragment call throws the
out-of-order error exactly when its kind-rank is strictly below the
builder's recorded highest rank; equal or higher rank succeeds (so repeated
same-kind calls such as multiple class additions pass the check). In
particular, `class` after `attr` on the same facade chain throws the
out-of-order error. -/
theorem outOfOrder_iff_rank_regression :
    (∀ (st : State) (c : Call), dupThrows st c = false →
      (((stepEx st c).2 = some Err.outOfOrder) ↔ rank c < st.priority)
        ∧ (((stepEx st c).2 = none) ↔ st.priority ≤ rank c))
      ∧ runAll initState [Call.attr "a", Call.cls "b"]
          = Except.error Err.outOfOrder := by
  constructor
  · intro st c hdup
    cases c with
    | elem v =>
      have hev : st.elementValue = "" := by
        simpa [dupThrows] using hdup
      by_cases hp : st.priority ≤ 1 <;>
        simp [stepEx, checkOrderStep, rank, hev, hp] <;> omega
    | id v =>
      have hev : st.idValue = "" := by
        simpa [dupThrows] using hdup
      by_cases hp : st.priority ≤ 2 <;>
        simp [stepEx, checkOrderStep, rank, hev, hp] <;> omega
    | cls v =>
      by_cases hp : st.priority ≤ 3 <;>
        simp [stepEx, checkOrderStep, rank, hp] <;> omega
    | attr v =>
      by_cases hp : st.priority ≤ 4 <;>
        simp [stepEx, checkOrderStep, rank, hp] <;> omega
    | pcls v =>
      by_cases hp : st.priority ≤ 5 <;>
        simp [stepEx, checkOrderStep, rank, hp] <;> omega
    | pelem v =>
      have hev : st.pseudoElementValue = "" := by
        simpa [dupThrows] using hdup
      by_cases hp : st.priority ≤ 6 <;>
        simp [stepEx, checkOrderStep, rank, hev, hp] <;> omega
  · rfl

/-- Witness for C2: on a fresh builder a class call passes the duplicate
guard and, rank 3 being at least the initial rank 0, succeeds. -/
theorem outOfOrder_iff_rank_regression_witness :
    dupThrows initState (Call.cls "a") = false
      ∧ (stepEx initState (Call.cls "a")).2 = none :=
  ⟨by decide,
    ((outOfOrder_iff_rank_regression.1 initState (Call.cls "a")
      (by decide)).2).mpr (by decide)⟩

end CssBuilder

namespace CssBuilder

/-- C3 counterexample: with the first value the empty string, a second
invocation of `element` (likewise `id`, `pseudoElement`) does not throw the
duplicate error — the whole chain succeeds, because the duplicate guard
tests the stored string's truthiness, not whether the method was called. -/
theorem duplicate_second_call_counterexample :
    runAll initState [Call.elem "", Call.elem "div"]
        = Except.ok ⟨"div", "", [], [], [], "", 1⟩
      ∧ runAll initState [Call.id "", Call.id "x"]
        = Except.ok ⟨"", "x", [], [], [], "", 2⟩
      ∧ runAll initState [Call.pelem "", Call.pelem "x"]
        = Except.ok ⟨"", "", [], [], [], "x", 6⟩ :=
  ⟨rfl, rfl, rfl⟩

/-- C3 amended: a second invocation of `element` (likewise `id`,
`pseudoElement`) throws the duplicate error whenever the first invocation
stored a nonempty string; `class`, `attr` and `pseudoClass` never throw
it. -/
theorem duplicate_second_call_amended :
    (∀ v1 v2 : String, v1 ≠ "" →
        (stepEx (stepEx initState (Call.elem v1)).1 (Call.elem v2)).2
          = some Err.duplicate)
      ∧ (∀ v1 v2 : String, v1 ≠ "" →
        (stepEx (stepEx initState (Call.id v1)).1 (Call.id v2)).2
          = some Err.duplicate)
      ∧ (∀ v1 v2 : String, v1 ≠ "" →
        (stepEx (stepEx initState (Call.pelem v1)).1 (Call.pelem v2)).2
          = some Err.duplicate)
      ∧ (∀ (st : State) (v : String),
        (stepEx st (Call.cls v)).2 ≠ some Err.duplicate
          ∧ (stepEx st (Call.attr v)).2 ≠ some Err.duplicate
          ∧ (stepEx st (Call.pcls v)).2 ≠ some Err.duplicate) := by
  refine ⟨?_, ?_, ?_, ?_⟩
  · intro v1 v2 h1
    simp [stepEx, checkOrderStep, initState, h1]
  · intro v1 v2 h1
    simp [stepEx, checkOrderStep, initState, h1]
  · intro v1 v2 h1
    simp [stepEx, checkOrderStep, initState, h1]
  · intro st v
    refine ⟨?_, ?_, ?_⟩ <;>
      · simp only [stepEx, checkOrderStep]
        split <;> simp

/-- Witness for C3 amended: a nonempty first element value makes the second
element call throw the duplicate error. -/
theorem duplicate_second_call_amended_witness :
    ("x" : String) ≠ ""
      ∧ (stepEx (stepEx initState (Call.elem "x")).1 (Call.elem "y")).2
          = some Err.duplicate :=
  ⟨by decide, duplicate_second_call_amended.1 "x" "y" (by decide)⟩

/-- C5 counterexample: errors are not atomic. After `class("a")` the chain
state is pinned by the first equation; the subsequent `element("div")` call
throws the out-of-order error, yet it has already stored the element value:
the post-call state differs from the pre-call state and renders `"div.a"`
instead of the pre-call `".a"`. -/
theorem error_atomicity_counterexample :
    runAll initState [Call.cls "a"]
        = Except.ok ⟨"", "", ["a"], [], [], "", 3⟩
      ∧ (stepEx ⟨"", "", ["a"], [], [], "", 3⟩ (Call.elem "div")).2
          = some Err.outOfOrder
      ∧ (stepEx ⟨"", "", ["a"], [], [], "", 3⟩ (Call.elem "div")).1
          ≠ (⟨"", "", ["a"], [], [], "", 3⟩ : State)
      ∧ stringify (stepEx ⟨"", "", ["a"], [], [], "", 3⟩ (Call.elem "div")).1
          = "div.a"
      ∧ stringify ⟨"", "", ["a"], [], [], "", 3⟩ = ".a" :=
  ⟨rfl, rfl, by decide, rfl, rfl⟩

/-- C5 amended: duplicate errors are atomic — a call that throws the
duplicate error leaves the builder state exactly as it was; out-of-order
errors are not — the offending fragment value is stored before `checkOrder`
throws — but any failing call leaves the rank tracker unchanged. -/
theorem error_atomicity_amended (st : State) (c : Call) :
    ((stepEx st c).2 = some Err.duplicate → (stepEx st c).1 = st)
      ∧ (∀ e : Err, (stepEx st c).2 = some e
          → ((stepEx st c).1).priority = st.priority) := by
  cases c <;>
    · simp only [stepEx, checkOrderStep]
      constructor
      · split <;> simp_all <;> split <;> simp_all
      · intro e
        split <;> simp_all <;> split <;> simp_all

/-- Witness for C5 amended: a duplicate-throwing element call on a builder
with a stored element leaves the state unchanged. -/
theorem error_atomicity_amended_witness :
    (stepEx ⟨"x", "", [], [], [], "", 1⟩ (Call.elem "y")).2 = some Err.duplicate
      ∧ (stepEx ⟨"x", "", [], [], [], "", 1⟩ (Call.elem "y")).1
          = (⟨"x", "", [], [], [], "", 1⟩ : State) :=
  ⟨by decide,
    (error_atomicity_amended ⟨"x", "", [], [], [], "", 1⟩ (Call.elem "y")).1
      (by decide)⟩

/-- C9: a singular fragment set to the empty string is treated as absent:
when the call succeeds it changes nothing of the render output, and a
subsequent call of the same singular kind does not throw (in particular not
the duplicate error), because the guard tests the stored string's
truthiness rather than whether the method was invoked. -/
theorem empty_singular_treated_absent (st : State) (v : String) :
    ((stepEx st (Call.elem "")).2 = none →
        stringify (stepEx st (Call.elem "")).1 = stringify st
          ∧ (stepEx (stepEx st (Call.elem "")).1 (Call.elem v)).2 = none)
      ∧ ((stepEx st (Call.id "")).2 = none →
        stringify (stepEx st (Call.id "")).1 = stringify st
          ∧ (stepEx (stepEx st (Call.id "")).1 (Call.id v)).2 = none)
      ∧ ((stepEx st (Call.pelem "")).2 = none →
        stringify (stepEx st (Call.pelem "")).1 = stringify st
          ∧ (stepEx (stepEx st (Call.pelem "")).1 (Call.pelem v)).2 = none) := by
  refine ⟨?_, ?_, ?_⟩ <;>
    · intro h
      simp only [stepEx, checkOrderStep] at h ⊢
      split at h <;> simp_all <;> split at h <;> simp_all [stringify]

/-- Witness for C9: on a fresh builder, `element("")` succeeds, renders
nothing, and a following `element("div")` also succeeds. -/
theorem empty_singular_treated_absent_witness :
    (stepEx initState (Call.elem "")).2 = none
      ∧ stringify (stepEx initState (Call.elem "")).1 = stringify initState
      ∧ (stepEx (stepEx initState (Call.elem "")).1 (Call.elem "div")).2
          = none :=
  ⟨by decide,
    ((empty_singular_treated_absent initState "div").1 (by decide)).1,
    ((empty_singular_treated_absent initState "div").1 (by decide)).2⟩

end CssBuilder

namespace CssBuilder

/-- Helper: prefixing every entry of a group and concatenating equals the
JS pattern of a leading separator copy followed by the sep-join, with the
empty group yielding the empty string. -/
theorem joinAll_map_sep (p : String) : (l : List String) →
    joinAll (l.map (fun s => p ++ s)) = if l = [] then "" else p ++ joinSep p l
  | [] => by simp [joinAll]
  | [a] => by simp [joinAll, joinSep]
  | a :: b :: t => by
    have ih := joinAll_map_sep p (b :: t)
    simp only [List.map_cons, joinAll, joinSep] at ih ⊢
    simp only [reduceCtorEq, if_false] at ih ⊢
    rw [ih]
    simp only [String.append_assoc]

/-- Helper: wrapping every entry of a group in brackets and concatenating
equals the JS pattern of a bracket-join wrapped in one outer bracket pair,
with the empty group yielding the empty string. -/
theorem joinAll_map_box : (l : List String) →
    joinAll (l.map (fun s => "[" ++ s ++ "]"))
      = if l = [] then "" else "[" ++ joinSep "][" l ++ "]"
  | [] => by simp [joinAll]
  | [a] => by simp [joinAll, joinSep]
  | a :: b :: t => by
    have ih := joinAll_map_box (b :: t)
    simp only [List.map_cons, joinAll, joinSep] at ih ⊢
    simp only [reduceCtorEq, if_false] at ih ⊢
    rw [ih]
    simp only [String.append_assoc]
    rfl

end CssBuilder

namespace CssBuilder

/-- Helper: on an arbitrary builder state, the code's `stringify` equals the
spec-side concatenation of prefixed groups with empty groups omitted. -/
theorem stringify_fields_eq (e i pe : String) (C A P : List String) (pr : Nat) :
    stringify ⟨e, i, C, A, P, pe, pr⟩
      = e ++ (if i = "" then "" else "#" ++ i)
          ++ joinAll (C.map (fun s => "." ++ s))
          ++ joinAll (A.map (fun s => "[" ++ s ++ "]"))
          ++ joinAll (P.map (fun s => ":" ++ s))
          ++ (if pe = "" then "" else "::" ++ pe) := by
  rw [joinAll_map_sep, joinAll_map_box, joinAll_map_sep]
  by_cases he : e = "" <;> by_cases hi : i = "" <;> by_cases hC : C = [] <;>
    by_cases hA : A = [] <;> by_cases hP : P = [] <;> by_cases hpe : pe = "" <;>
      simp [stringify, he, hi, hC, hA, hP, hpe, List.length_pos,
        String.append_assoc] <;> rfl

end CssBuilder

namespace CssBuilder

/-- Helper: a call sequence whose kind-ranks pass every `checkOrder` test
from the current tracker value, and which sets each singular kind at most
once onto an unset slot, runs without error and gathers its values into the
corresponding fields, in call order. -/
theorem runAll_gather : ∀ (calls : List Call) (st : State),
    ranksOK st.priority calls = true →
    (st.elementValue = "" ∨ elems calls = []) →
    (elems calls).length ≤ 1 →
    (st.idValue = "" ∨ ids calls = []) →
    (ids calls).length ≤ 1 →
    (st.pseudoElementValue = "" ∨ pelems calls = []) →
    (pelems calls).length ≤ 1 →
    ∃ st2 : State, runAll st calls = Except.ok st2
      ∧ st2.elementValue = st.elementValue ++ joinAll (elems calls)
      ∧ st2.idValue = st.idValue ++ joinAll (ids calls)
      ∧ st2.classValues = st.classValues ++ clss calls
      ∧ st2.attrValues = st.attrValues ++ attrs calls
      ∧ st2.pseudoClassValues = st.pseudoClassValues ++ pclss calls
      ∧ st2.pseudoElementValue = st.pseudoElementValue ++ joinAll (pelems calls) := by
  intro calls
  induction calls with
  | nil =>
    intro st _ _ _ _ _ _ _
    exact ⟨st, rfl, by simp [elems, joinAll], by simp [ids, joinAll],
      by simp [clss], by simp [attrs], by simp [pclss],
      by simp [pelems, joinAll]⟩
  | cons c rest ih =>
    intro st hord hEor hElen hIor hIlen hPor hPlen
    cases c with
    | elem v =>
      simp only [ranksOK, rank, Bool.and_eq_true, decide_eq_true_eq] at hord
      obtain ⟨hp, hrest⟩ := hord
      have hev : st.elementValue = "" := by
        cases hEor with
        | inl h => exact h
        | inr h => simp [elems] at h
      have hE0 : elems rest = [] := by
        have hlen := hElen
        simp only [elems, List.length_cons] at hlen
        exact List.length_eq_zero.mp (by omega)
      have hstep : runAll st (Call.elem v :: rest)
          = runAll { st with elementValue := v, priority := 1 } rest := by
        simp [runAll, stepEx, checkOrderStep, hev, hp]
      obtain ⟨st2, hrun, h1, h2, h3, h4, h5, h6⟩ :=
        ih { st with elementValue := v, priority := 1 } (by simpa using hrest)
          (Or.inr hE0) (by simp [hE0])
          (by simpa [ids] using hIor) (by simpa [ids] using hIlen)
          (by simpa [pelems] using hPor) (by simpa [pelems] using hPlen)
      refine ⟨st2, hstep.trans hrun, ?_, ?_, ?_, ?_, ?_, ?_⟩
      · rw [h1]; simp [elems, joinAll, hev, hE0]
      · rw [h2]; simp [ids]
      · rw [h3]; simp [clss]
      · rw [h4]; simp [attrs]
      · rw [h5]; simp [pclss]
      · rw [h6]; simp [pelems]
    | id v =>
      simp only [ranksOK, rank, Bool.and_eq_true, decide_eq_true_eq] at hord
      obtain ⟨hp, hrest⟩ := hord
      have hev : st.idValue = "" := by
        cases hIor with
        | inl h => exact h
        | inr h => simp [ids] at h
      have hI0 : ids rest = [] := by
        have hlen := hIlen
        simp only [ids, List.length_cons] at hlen
        exact List.length_eq_zero.mp (by omega)
      have hstep : runAll st (Call.id v :: rest)
          = runAll { st with idValue := v, priority := 2 } rest := by
        simp [runAll, stepEx, checkOrderStep, hev, hp]
      obtain ⟨st2, hrun, h1, h2, h3, h4, h5, h6⟩ :=
        ih { st with idValue := v, priority := 2 } (by simpa using hrest)
          (by simpa [elems] using hEor) (by simpa [elems] using hElen)
          (Or.inr hI0) (by simp [hI0])
          (by simpa [pelems] using hPor) (by simpa [pelems] using hPlen)
      refine ⟨st2, hstep.trans hrun, ?_, ?_, ?_, ?_, ?_, ?_⟩
      · rw [h1]; simp [elems]
      · rw [h2]; simp [ids, joinAll, hev, hI0]
      · rw [h3]; simp [clss]
      · rw [h4]; simp [attrs]
      · rw [h5]; simp [pclss]
      · rw [h6]; simp [pelems]
    | cls v =>
      simp only [ranksOK, rank, Bool.and_eq_true, decide_eq_true_eq] at hord
      obtain ⟨hp, hrest⟩ := hord
      have hstep : runAll st (Call.cls v :: rest)
          = runAll { st with classValues := st.classValues ++ [v], priority := 3 } rest := by
        simp [runAll, stepEx, checkOrderStep, hp]
      obtain ⟨st2, hrun, h1, h2, h3, h4, h5, h6⟩ :=
        ih { st with classValues := st.classValues ++ [v], priority := 3 }
          (by simpa using hrest)
          (by simpa [elems] using hEor) (by simpa [elems] using hElen)
          (by simpa [ids] using hIor) (by simpa [ids] using hIlen)
          (by simpa [pelems] using hPor) (by simpa [pelems] using hPlen)
      refine ⟨st2, hstep.trans hrun, ?_, ?_, ?_, ?_, ?_, ?_⟩
      · rw [h1]; simp [elems]
      · rw [h2]; simp [ids]
      · rw [h3]; simp [clss]
      · rw [h4]; simp [attrs]
      · rw [h5]; simp [pclss]
      · rw [h6]; simp [pelems]
    | attr v =>
      simp only [ranksOK, rank, Bool.and_eq_true, decide_eq_true_eq] at hord
      obtain ⟨hp, hrest⟩ := hord
      have hstep : runAll st (Call.attr v :: rest)
          = runAll { st with attrValues := st.attrValues ++ [v], priority := 4 } rest := by
        simp [runAll, stepEx, checkOrderStep, hp]
      obtain ⟨st2, hrun, h1, h2, h3, h4, h5, h6⟩ :=
        ih { st with attrValues := st.attrValues ++ [v], priority := 4 }
          (by simpa using hrest)
          (by simpa [elems] using hEor) (by simpa [elems] using hElen)
          (by simpa [ids] using hIor) (by simpa [ids] using hIlen)
          (by simpa [pelems] using hPor) (by simpa [pelems] using hPlen)
      refine ⟨st2, hstep.trans hrun, ?_, ?_, ?_, ?_, ?_, ?_⟩
      · rw [h1]; simp [elems]
      · rw [h2]; simp [ids]
      · rw [h3]; simp [clss]
      · rw [h4]; simp [attrs]
      · rw [h5]; simp [pclss]
      · rw [h6]; simp [pelems]
    | pcls v =>
      simp only [ranksOK, rank, Bool.and_eq_true, decide_eq_true_eq] at hord
      obtain ⟨hp, hrest⟩ := hord
      have hstep : runAll st (Call.pcls v :: rest)
          = runAll { st with pseudoClassValues := st.pseudoClassValues ++ [v], priority := 5 } rest := by
        simp [runAll, stepEx, checkOrderStep, hp]
      obtain ⟨st2, hrun, h1, h2, h3, h4, h5, h6⟩ :=
        ih { st with pseudoClassValues := st.pseudoClassValues ++ [v], priority := 5 }
          (by simpa using hrest)
          (by simpa [elems] using hEor) (by simpa [elems] using hElen)
          (by simpa [ids] using hIor) (by simpa [ids] using hIlen)
          (by simpa [pelems] using hPor) (by simpa [pelems] using hPlen)
      refine ⟨st2, hstep.trans hrun, ?_, ?_, ?_, ?_, ?_, ?_⟩
      · rw [h1]; simp [elems]
      · rw [h2]; simp [ids]
      · rw [h3]; simp [clss]
      · rw [h4]; simp [attrs]
      · rw [h5]; simp [pclss]
      · rw [h6]; simp [pelems]
    | pelem v =>
      simp only [ranksOK, rank, Bool.and_eq_true, decide_eq_true_eq] at hord
      obtain ⟨hp, hrest⟩ := hord
      have hev : st.pseudoElementValue = "" := by
        cases hPor with
        | inl h => exact h
        | inr h => simp [pelems] at h
      have hP0 : pelems rest = [] := by
        have hlen := hPlen
        simp only [pelems, List.length_cons] at hlen
        exact List.length_eq_zero.mp (by omega)
      have hstep : runAll st (Call.pelem v :: rest)
          = runAll { st with pseudoElementValue := v, priority := 6 } rest := by
        simp [runAll, stepEx, checkOrderStep, hev, hp]
      obtain ⟨st2, hrun, h1, h2, h3, h4, h5, h6⟩ :=
        ih { st with pseudoElementValue := v, priority := 6 }
          (by simpa using hrest)
          (by simpa [elems] using hEor) (by simpa [elems] using hElen)
          (by simpa [ids] using hIor) (by simpa [ids] using hIlen)
          (Or.inr hP0) (by simp [hP0])
      refine ⟨st2, hstep.trans hrun, ?_, ?_, ?_, ?_, ?_, ?_⟩
      · rw [h1]; simp [elems]
      · rw [h2]; simp [ids]
      · rw [h3]; simp [clss]
      · rw [h4]; simp [attrs]
      · rw [h5]; simp [pclss]
      · rw [h6]; simp [pelems, joinAll, hev, hP0]

end CssBuilder

namespace CssBuilder

/-- C1: a facade chain whose kind-ranks are non-decreasing and which sets
element, id and pseudo-element each at most once runs without error, and
its `stringify()` output is the concatenation, in fixed kind order, of the
element as-is, the id with `#`, each class with `.`, each attribute in
`[` `]`, each pseudo-class with `:` and the pseudo-element with `::`, with
multi-entry groups in insertion order, no separators between groups, and
every empty group omitted. -/
theorem render_valid_sequences (calls : List Call)
    (hord : ranksOK initState.priority calls = true)
    (hE : (elems calls).length ≤ 1)
    (hI : (ids calls).length ≤ 1)
    (hPE : (pelems calls).length ≤ 1) :
    renderRun calls = Except.ok (claimRender calls) := by
  obtain ⟨st2, hrun, h1, h2, h3, h4, h5, h6⟩ :=
    runAll_gather calls initState hord (Or.inl rfl) hE (Or.inl rfl) hI
      (Or.inl rfl) hPE
  have hst : st2 = ⟨joinAll (elems calls), joinAll (ids calls), clss calls,
      attrs calls, pclss calls, joinAll (pelems calls), st2.priority⟩ := by
    cases st2
    simp_all [initState]
  unfold renderRun
  rw [hrun]
  simp only [Except.map]
  rw [hst, stringify_fields_eq]
  simp only [claimRender]

/-- Witness for C1: a concrete valid chain of all six kinds renders to the
concatenation the claim describes. -/
theorem render_valid_sequences_witness :
    ranksOK initState.priority [Call.elem "div", Call.id "main",
        Call.cls "c1", Call.cls "c2", Call.attr "k=v", Call.pcls "hover",
        Call.pelem "after"] = true
      ∧ (elems [Call.elem "div", Call.id "main", Call.cls "c1",
          Call.cls "c2", Call.attr "k=v", Call.pcls "hover",
          Call.pelem "after"]).length ≤ 1
      ∧ (ids [Call.elem "div", Call.id "main", Call.cls "c1", Call.cls "c2",
          Call.attr "k=v", Call.pcls "hover", Call.pelem "after"]).length ≤ 1
      ∧ (pelems [Call.elem "div", Call.id "main", Call.cls "c1",
          Call.cls "c2", Call.attr "k=v", Call.pcls "hover",
          Call.pelem "after"]).length ≤ 1
      ∧ renderRun [Call.elem "div", Call.id "main", Call.cls "c1",
          Call.cls "c2", Call.attr "k=v", Call.pcls "hover",
          Call.pelem "after"]
        = Except.ok (claimRender [Call.elem "div", Call.id "main",
            Call.cls "c1", Call.cls "c2", Call.attr "k=v", Call.pcls "hover",
            Call.pelem "after"]) :=
  ⟨by decide, by decide, by decide, by decide,
    render_valid_sequences _ (by decide) (by decide) (by decide) (by decide)⟩

end CssBuilder

namespace CssBuilder

/-- C2 counterexample: the "exactly when" direction fails where the
duplicate guard preempts the order check. After `element("x")` and
`class("c")` the highest added rank is 3; a second `element("y")` call has
rank 1, strictly below 3, yet it raises the duplicate error — not the
out-of-order error the claim requires. -/
theorem outOfOrder_iff_counterexample :
    runAll initState [Call.elem "x", Call.cls "c"]
        = Except.ok ⟨"x", "", ["c"], [], [], "", 3⟩
      ∧ rank (Call.elem "y") < (⟨"x", "", ["c"], [], [], "", 3⟩ : State).priority
      ∧ (stepEx ⟨"x", "", ["c"], [], [], "", 3⟩ (Call.elem "y")).2
          = some Err.duplicate
      ∧ (stepEx ⟨"x", "", ["c"], [], [], "", 3⟩ (Call.elem "y")).2
          ≠ some Err.outOfOrder :=
  ⟨rfl, by decide, rfl, by decide⟩

end CssBuilder
